import Mathlib

/-!
Verification of the DirectoryTableLoader component of the
SimpleFakeDataAnalysis repository (notebook `003-Data-In-Data-Out.ipynb`).

The notebook's migration logic works on Python strings (file paths and
file contents).  We embed Python strings as `List Char` and translate the
string operations the code uses (`str.split` with a one-character
separator, `str.lower`, `str.endswith`) directly.  The file system, the
csv parser (`pandas.read_csv`) and the relational sink
(`DataFrame.to_sql` / `pandas.read_sql`) are the external collaborators
of the component; they are modelled as explicit data so that the loops
of the notebook become pure state-passing functions.
-/

namespace DTL

/-- Convert a Lean string literal to the `List Char` embedding of a
Python string. -/
def str (s : String) : List Char := s.toList

/-- Python `s.split(sep)` for a one-character separator: splitting the
empty string gives `[[]]`, and every occurrence of the separator starts
a new chunk. -/
def splitOnChar (sep : Char) : List Char → List (List Char)
  | [] => [[]]
  | c :: cs =>
    if c = sep then [] :: splitOnChar sep cs
    else (c :: (splitOnChar sep cs).headD []) :: (splitOnChar sep cs).tail

/-- Python `s.lower()` (the files in the notebook are ASCII). -/
def strLower (l : List Char) : List Char := l.map Char.toLower

/-- Python `str(f).split('/')[-1]`: the part of the path after the last
slash. -/
def baseName (p : List Char) : List Char :=
  (splitOnChar '/' p).getLastD []

/-- The table-name derivation of the migration loops:
`f"\x7bstr(f).split('/')[-1].split('.')[0].lower()\x7ds"`. -/
def deriveTableName (p : List Char) : List Char :=
  strLower ((splitOnChar '.' (baseName p)).headD []) ++ str "s"

/-- Follows the spec's words for comparison with `deriveTableName`:
"take the file's base name without extension, lowercase it, append a
single trailing s", where the extension of a base name is everything
after its last dot. -/
def removeLastDotSuffix (b : List Char) : List Char :=
  if b.contains '.' then
    ((b.reverse.dropWhile (fun c => decide (c ≠ '.'))).drop 1).reverse
  else b

/-- Follows the spec's words: base name without extension, lowercased,
with a trailing s appended. -/
def deriveTableNameSpec (p : List Char) : List Char :=
  strLower (removeLastDotSuffix (baseName p)) ++ str "s"

/- ### Lemmas about `splitOnChar` -/

theorem splitOnChar_ne_nil (sep : Char) (l : List Char) :
    splitOnChar sep l ≠ [] := by
  cases l with
  | nil => simp [splitOnChar]
  | cons c cs =>
    by_cases h : c = sep <;> simp [splitOnChar, h]

theorem headD_splitOnChar (sep : Char) (l : List Char) :
    (splitOnChar sep l).headD [] = l.takeWhile (fun c => decide (c ≠ sep)) := by
  induction l with
  | nil => rfl
  | cons c cs ih =>
    by_cases h : c = sep
    · simp [splitOnChar, h, List.takeWhile_cons]
    · simp [splitOnChar, h, List.takeWhile_cons]
      simpa using ih

theorem deriveTableName_eq_takeWhile (p : List Char) :
    deriveTableName p =
      strLower ((baseName p).takeWhile (fun c => decide (c ≠ '.'))) ++ str "s" := by
  rw [deriveTableName, headD_splitOnChar]

/- ### Claim theorems about the table-name derivation -/

/-- Claim C3, counterexample: on a file whose base name contains more
than one dot, `deriveTableName` does not return the lowercased base name
without extension plus `s`: for `../data/my.data.csv` the code yields
`mys` while the spec's words yield `my.datas`. -/
theorem deriveTableName_stem_counterexample :
    deriveTableName (str "../data/my.data.csv") = str "mys" ∧
    deriveTableNameSpec (str "../data/my.data.csv") = str "my.datas" ∧
    deriveTableName (str "../data/my.data.csv") ≠
      deriveTableNameSpec (str "../data/my.data.csv") := by
  refine ⟨by decide, by decide, by decide⟩

/-- Claim C3, amended: `deriveTableName` returns the portion of the
file's base name before its first dot (not the base name without its
extension), lowercased, with a single trailing `s` appended; in
particular `deriveTableName "Person.csv" = "persons"` and
`deriveTableName "contactdetails.csv" = "contactdetailss"` (a name
already ending in `s` gets a literal double `s`). -/
theorem deriveTableName_first_dot_lower_s :
    (∀ p : List Char,
        deriveTableName p =
          strLower ((baseName p).takeWhile (fun c => decide (c ≠ '.'))) ++ str "s") ∧
    deriveTableName (str "Person.csv") = str "persons" ∧
    deriveTableName (str "contactdetails.csv") = str "contactdetailss" := by
  refine ⟨deriveTableName_eq_takeWhile, by decide, by decide⟩

/-- Claim C10: `deriveTableName` truncates the file name at its first
dot, not its last: whenever the base name contains a dot, the derived
table name is the lowercased text before the first dot plus `s`,
discarding the rest of the base name. -/
theorem deriveTableName_truncates_first_dot (p : List Char)
    (_h : (baseName p).contains '.' = true) :
    deriveTableName p =
      strLower ((baseName p).takeWhile (fun c => decide (c ≠ '.'))) ++ str "s" :=
  deriveTableName_eq_takeWhile p

/-- Witness for C10 at the concrete path `../data/my.data.csv`, whose
base name `my.data.csv` contains a dot, and whose derived table name is
`mys`. -/
theorem deriveTableName_truncates_first_dot_witness :
    (baseName (str "../data/my.data.csv")).contains '.' = true ∧
    deriveTableName (str "../data/my.data.csv") = str "mys" := by
  refine ⟨by decide, ?_⟩
  exact (deriveTableName_truncates_first_dot (str "../data/my.data.csv")
    (by decide)).trans (by decide)

/- ### File system and discovery -/

/-- A discovered source file: its path together with the lines of its
content (the file system is static for the duration of one batch run,
so the content a later `read_csv` would see is already determined at
discovery time). -/
structure SourceFile where
  path : List Char
  content : List (List Char)
deriving DecidableEq

/-- The file system visible to the loader: a finite map from directory
paths to the ordered entries `Path.iterdir` yields for them. -/
structure FileSystem where
  dirs : List (List Char × List SourceFile)
deriving DecidableEq

/-- Error raised when the enumerated directory is missing
(`Path.iterdir` raising `FileNotFoundError`); the spec's
`DirectoryNotFound`. -/
inductive FsError where
  | directoryNotFound
deriving DecidableEq

def findDir : List (List Char × List SourceFile) → List Char →
    Option (List SourceFile)
  | [], _ => none
  | (d, es) :: rest, q => if d = q then some es else findDir rest q

/-- `path_dir.iterdir()`: the entries of the directory, or
`DirectoryNotFound` when the directory does not exist. -/
def iterdir (fs : FileSystem) (dir : List Char) :
    Except FsError (List SourceFile) :=
  match findDir fs.dirs dir with
  | some es => Except.ok es
  | none => Except.error FsError.directoryNotFound

/-- The filter of the notebook's list comprehension:
`str(x).endswith('.csv') and str(x) != '../data/Person1.csv'`,
with the one excluded literal path generalized to a set of excluded
paths as in the spec's interface. -/
def filterFiles (suf : List Char) (exclude : List (List Char))
    (es : List SourceFile) : List SourceFile :=
  es.filter (fun x => decide (suf <:+ x.path) && !decide (x.path ∈ exclude))

/-- `discover(directory, suffix, exclude)`: the list comprehension over
`path_dir.iterdir()`. -/
def discover (fs : FileSystem) (dir suf : List Char)
    (exclude : List (List Char)) : Except FsError (List SourceFile) :=
  (iterdir fs dir).map (filterFiles suf exclude)

/- ### The parser model -/

/-- Failures of the external csv parser, as wrapped by the loader
(`pandas.read_csv` with `sep="\t"` and `index_col='id'`): the spec's
`ParseError` cases for a malformed file or a missing identifier
column. -/
inductive ParseError where
  | emptyFile
  | missingIdColumn
  | raggedRow (seen : Nat)
deriving DecidableEq

/-- The printable description of a parse failure, as interpolated by
`print(f"Error: ...")`. -/
def describeError : ParseError → List Char
  | ParseError.emptyFile => str "No columns to parse from file"
  | ParseError.missingIdColumn => str "Index id invalid"
  | ParseError.raggedRow _ => str "Error tokenizing data"

/-- The in-memory row/column structure produced by the parser: the
designated identifier column, the remaining column names, and the rows
as pairs of an identifier value and the remaining cell values. -/
structure TabularData where
  idColumn : List Char
  columns : List (List Char)
  rows : List (List Char × List (List Char))
deriving DecidableEq

/-- Parse the data rows: every row must have exactly as many fields as
the header; the field at the identifier position is promoted to the row
identifier. -/
def parseRows (sep : Char) (idIdx ncols : Nat) :
    List (List Char) → Except ParseError (List (List Char × List (List Char)))
  | [] => Except.ok []
  | line :: rest =>
    let fields := splitOnChar sep line
    if fields.length = ncols then
      match parseRows sep idIdx ncols rest with
      | Except.ok rs => Except.ok ((fields.getD idIdx [], fields.eraseIdx idIdx) :: rs)
      | Except.error e => Except.error e
    else Except.error (ParseError.raggedRow fields.length)

/-- Model of `pd.read_csv(f, sep="\t", index_col='id', low_memory=False)`
on the lines of a file: the first line is the header naming the columns,
the column named `idCol` is promoted to the row index, and malformed
input is rejected with a `ParseError`. -/
def parse (sep : Char) (idCol : List Char) (content : List (List Char)) :
    Except ParseError TabularData :=
  match content with
  | [] => Except.error ParseError.emptyFile
  | header :: body =>
    let cols := splitOnChar sep header
    match cols.findIdx? (fun c => decide (c = idCol)) with
    | none => Except.error ParseError.missingIdColumn
    | some i =>
      match parseRows sep i cols.length body with
      | Except.ok rs =>
        Except.ok ⟨idCol, cols.eraseIdx i, rs⟩
      | Except.error e => Except.error e

/-- Whether the parser rejects a discovered file. -/
def parseFails (f : SourceFile) : Bool :=
  match parse '\t' (str "id") f.content with
  | Except.ok _ => false
  | Except.error _ => true

/- ### The relational sink model -/

/-- A relational table as stored in the sink: a header row of column
names followed by the data rows. -/
structure Table where
  header : List (List Char)
  rows : List (List (List Char))
deriving DecidableEq

/-- The relational sink: the named tables the engine currently holds. -/
abbrev Sink : Type := List (List Char × Table)

/-- Look a table up by name (`SELECT * FROM n`). -/
def lookupTable : Sink → List Char → Option Table
  | [], _ => none
  | (m, t) :: rest, n => if m = n then some t else lookupTable rest n

/-- Drop-and-recreate semantics of `if_exists='replace'` on the named
table, leaving every other table alone. -/
def updateAssoc : Sink → List Char → Table → Sink
  | [], n, t => [(n, t)]
  | (m, u) :: rest, n, t =>
    if m = n then (n, t) :: rest else (m, u) :: updateAssoc rest n t

/-- The output table written by
`df.to_sql(name=..., con=engine, if_exists='replace', index_label='id')`:
the row index is materialized as an explicit first column labelled with
the identifier column's name. -/
def tableOfData (td : TabularData) : Table :=
  ⟨td.idColumn :: td.columns, td.rows.map (fun r => r.1 :: r.2)⟩

/-- `load(tabularData, tableName, sink, replace)`: the `to_sql` call of
the migration loops, with conflict policy `replace`. -/
def load (td : TabularData) (tableName : List Char) (s : Sink) : Sink :=
  updateAssoc s tableName (tableOfData td)

/-- `pd.read_sql("SELECT * FROM tableName", con=engine)`: read a loaded
table back out of the sink. -/
def readTable (s : Sink) (tableName : List Char) : Option Table :=
  lookupTable s tableName

instance {ε α : Type} [DecidableEq ε] [DecidableEq α] :
    DecidableEq (Except ε α) := fun a b =>
  match a, b with
  | Except.ok x, Except.ok y =>
    if h : x = y then Decidable.isTrue (by rw [h])
    else Decidable.isFalse (fun hh => h (Except.ok.inj hh))
  | Except.error e, Except.error f =>
    if h : e = f then Decidable.isTrue (by rw [h])
    else Decidable.isFalse (fun hh => h (Except.error.inj hh))
  | Except.ok _, Except.error _ => Decidable.isFalse (fun hh => Except.noConfusion hh)
  | Except.error _, Except.ok _ => Decidable.isFalse (fun hh => Except.noConfusion hh)

theorem lookupTable_updateAssoc (s : Sink) (n m : List Char) (t : Table) :
    lookupTable (updateAssoc s n t) m =
      if n = m then some t else lookupTable s m := by
  induction s with
  | nil =>
    by_cases h : n = m <;> simp [updateAssoc, lookupTable, h]
  | cons p rest ih =>
    obtain ⟨k, u⟩ := p
    by_cases hk : k = n
    · subst hk
      by_cases h : k = m <;> simp [updateAssoc, lookupTable, h]
    · by_cases h : k = m
      · subst h
        have hnm : ¬n = k := fun hh => hk hh.symm
        simp [updateAssoc, lookupTable, hk, hnm]
      · simp [updateAssoc, lookupTable, hk, h, ih]

theorem lookupTable_updateAssoc_self (s : Sink) (n : List Char) (t : Table) :
    lookupTable (updateAssoc s n t) n = some t := by
  simp [lookupTable_updateAssoc]

theorem lookupTable_updateAssoc_isSome (s : Sink) (n m : List Char) (t : Table)
    (h : (lookupTable s m).isSome) :
    (lookupTable (updateAssoc s n t) m).isSome := by
  rw [lookupTable_updateAssoc]
  by_cases hnm : n = m <;> simp [hnm, h]

/- ### Claim theorems about discover -/

/-- Claim C4: `discover` returns exactly the entries of the directory
whose path ends with the suffix and which are not members of the
exclude set, and no other entries. -/
theorem discover_exact (fs : FileSystem) (dir suf : List Char)
    (exclude : List (List Char)) (entries : List SourceFile)
    (h : iterdir fs dir = Except.ok entries) :
    ∃ res, discover fs dir suf exclude = Except.ok res ∧
      ∀ x, x ∈ res ↔ x ∈ entries ∧ suf <:+ x.path ∧ x.path ∉ exclude := by
  refine ⟨filterFiles suf exclude entries, ?_, ?_⟩
  · simp [discover, h, Except.map]
  · intro x
    simp [filterFiles, List.mem_filter, and_assoc]

/-- Witness for C4: a concrete directory with a matching file, an
excluded file and a non-matching file. -/
theorem discover_exact_witness :
    ∃ res,
      discover
        ⟨[(str "../data/",
           [⟨str "../data/Person.csv", []⟩,
            ⟨str "../data/Person1.csv", []⟩,
            ⟨str "../data/notes.txt", []⟩])]⟩
        (str "../data/") (str ".csv") [str "../data/Person1.csv"] =
        Except.ok res ∧
      ∀ x, x ∈ res ↔
        x ∈ [(⟨str "../data/Person.csv", []⟩ : SourceFile),
             ⟨str "../data/Person1.csv", []⟩,
             ⟨str "../data/notes.txt", []⟩] ∧
          str ".csv" <:+ x.path ∧ x.path ∉ [str "../data/Person1.csv"] :=
  discover_exact
    ⟨[(str "../data/",
       [⟨str "../data/Person.csv", []⟩,
        ⟨str "../data/Person1.csv", []⟩,
        ⟨str "../data/notes.txt", []⟩])]⟩
    (str "../data/") (str ".csv") [str "../data/Person1.csv"]
    [⟨str "../data/Person.csv", []⟩,
     ⟨str "../data/Person1.csv", []⟩,
     ⟨str "../data/notes.txt", []⟩]
    (by decide)

/-- Claim C8: on a directory none of whose entries match the suffix,
`discover` returns the empty sequence rather than an error. -/
theorem discover_no_match_empty (fs : FileSystem) (dir suf : List Char)
    (exclude : List (List Char)) (entries : List SourceFile)
    (h : iterdir fs dir = Except.ok entries)
    (_hne : entries ≠ [])
    (hnm : ∀ x ∈ entries, ¬ suf <:+ x.path) :
    discover fs dir suf exclude = Except.ok [] := by
  have : filterFiles suf exclude entries = [] := by
    rw [filterFiles, List.filter_eq_nil_iff]
    intro x hx
    simp [hnm x hx]
  simp [discover, h, Except.map, this]

/-- Witness for C8: a nonempty concrete directory holding only a `.txt`
file, asked for `.csv`. -/
theorem discover_no_match_empty_witness :
    discover ⟨[(str "../data/", [⟨str "../data/notes.txt", []⟩])]⟩
        (str "../data/") (str ".csv") [] = Except.ok [] :=
  discover_no_match_empty
    ⟨[(str "../data/", [⟨str "../data/notes.txt", []⟩])]⟩
    (str "../data/") (str ".csv") []
    [⟨str "../data/notes.txt", []⟩]
    (by decide) (by decide) (by decide)

/- ### Claim theorems about load and read-back -/

/-- Claim C5: after a successful `load` with conflict policy `replace`,
the sink contains a table of the given name whose rows equal the
TabularData contents, and the identifier column is materialized as an
explicit first output column rather than dropped. -/
theorem load_replace_contains_table (td : TabularData) (n : List Char)
    (s : Sink) :
    ∃ t, lookupTable (load td n s) n = some t ∧
      t.header = td.idColumn :: td.columns ∧
      t.rows = td.rows.map (fun r => r.1 :: r.2) :=
  ⟨tableOfData td, lookupTable_updateAssoc_self s n (tableOfData td), rfl, rfl⟩

/-- Claim C6: loading a TabularData under conflict policy `replace` and
then reading the same table back yields rows equal to the original
rows, identifier values included, up to order. -/
theorem load_readTable_round_trip (td : TabularData) (n : List Char)
    (s : Sink) :
    ∃ t, readTable (load td n s) n = some t ∧
      List.Perm t.rows (td.rows.map (fun r => r.1 :: r.2)) :=
  ⟨tableOfData td, lookupTable_updateAssoc_self s n (tableOfData td),
    List.Perm.refl _⟩

/- ### The batch runs -/

/-- Per-file outcome of a batch, as the spec's `LoadResult`: success
carries the derived table name, failure carries the file and the
error's description (the postgres loop prints `Error: ...` for it). -/
inductive LoadResult where
  | success (tableName : List Char)
  | failure (path : List Char) (errorDescription : List Char)
deriving DecidableEq

def LoadResult.isSuccess : LoadResult → Bool
  | LoadResult.success _ => true
  | LoadResult.failure _ _ => false

def LoadResult.isFailure : LoadResult → Bool
  | LoadResult.success _ => false
  | LoadResult.failure _ _ => true

/-- The mutable state of one batch run: the file system the files are
read from and the relational sink the tables are written to. -/
structure World where
  fs : FileSystem
  sink : Sink
deriving DecidableEq

/-- Failure behavior of the external relational store on a given write:
`none` means the write of that table succeeds, `some d` means `to_sql`
raises an error described by `d` (connectivity loss, constraint
violation, disk full). -/
abbrev WriteOracle : Type := List Char → Option (List Char)

/-- The write oracle of a healthy sink: every write succeeds. -/
def oracleNone : WriteOracle := fun _ => none

/-- One iteration of the postgres migration loop body, with its
`try/except` converted to a `LoadResult`: parse the file, derive the
table name, write the table; any failure is caught and recorded. -/
def processFile (we : WriteOracle) (f : SourceFile) (w : World) :
    LoadResult × World :=
  match parse '\t' (str "id") f.content with
  | Except.error e => (LoadResult.failure f.path (describeError e), w)
  | Except.ok td =>
    let n := deriveTableName f.path
    match we n with
    | some d => (LoadResult.failure f.path d, w)
    | none => (LoadResult.success n, ⟨w.fs, load td n w.sink⟩)

/-- The outcome the per-file step records for a file, independent of the
state of the sink's tables. -/
def fileOutcome (we : WriteOracle) (f : SourceFile) : LoadResult :=
  match parse '\t' (str "id") f.content with
  | Except.error e => LoadResult.failure f.path (describeError e)
  | Except.ok _ =>
    let n := deriveTableName f.path
    match we n with
    | some d => LoadResult.failure f.path d
    | none => LoadResult.success n

/-- The postgres migration loop over the discovered files: every file is
processed, and its outcome is recorded. -/
def runFiles (we : WriteOracle) : List SourceFile → World →
    List LoadResult × World
  | [], w => ([], w)
  | f :: rest, w =>
    let s := processFile we f w
    let r := runFiles we rest s.2
    (s.1 :: r.1, r.2)

/-- `runBatch(directory, suffix, exclude, sink, replace)` as the
postgres migration cell implements it: discover the files, then run the
per-file loop with its `try/except`. -/
def runBatch (we : WriteOracle) (w : World) (dir suf : List Char)
    (exclude : List (List Char)) :
    Except FsError (List LoadResult) × World :=
  match discover w.fs dir suf exclude with
  | Except.error e => (Except.error e, w)
  | Except.ok files =>
    let r := runFiles we files w
    (Except.ok r.1, r.2)

/-- The sqlite migration loop over the discovered files: it has no
`try/except`, so the first failure escapes as an exception (returned as
`some description`) and the remaining files are never processed. -/
def runFilesSqlite (we : WriteOracle) : List SourceFile → World →
    Option (List Char) × World
  | [], w => (none, w)
  | f :: rest, w =>
    match parse '\t' (str "id") f.content with
    | Except.error e => (some (describeError e), w)
    | Except.ok td =>
      let n := deriveTableName f.path
      match we n with
      | some d => (some d, w)
      | none => runFilesSqlite we rest ⟨w.fs, load td n w.sink⟩

/-- The sqlite migration cell: discover the files, then run the loop
without any per-file error handling. -/
def runBatchSqlite (we : WriteOracle) (w : World) (dir suf : List Char)
    (exclude : List (List Char)) :
    Except FsError (Option (List Char)) × World :=
  match discover w.fs dir suf exclude with
  | Except.error e => (Except.error e, w)
  | Except.ok files =>
    let r := runFilesSqlite we files w
    (Except.ok r.1, r.2)

/- ### Lemmas about the batch runs -/

theorem processFile_fst (we : WriteOracle) (f : SourceFile) (w : World) :
    (processFile we f w).1 = fileOutcome we f := by
  cases hp : parse '\t' (str "id") f.content with
  | error e => simp [processFile, fileOutcome, hp]
  | ok td =>
    cases hw : we (deriveTableName f.path) <;>
      simp [processFile, fileOutcome, hp, hw]

theorem processFile_fs (we : WriteOracle) (f : SourceFile) (w : World) :
    (processFile we f w).2.fs = w.fs := by
  cases hp : parse '\t' (str "id") f.content with
  | error e => simp [processFile, hp]
  | ok td =>
    cases hw : we (deriveTableName f.path) <;> simp [processFile, hp, hw]

theorem runFiles_fst (we : WriteOracle) (l : List SourceFile) (w : World) :
    (runFiles we l w).1 = l.map (fileOutcome we) := by
  induction l generalizing w with
  | nil => rfl
  | cons f rest ih =>
    simp [runFiles, processFile_fst, ih]

theorem runFiles_fs (we : WriteOracle) (l : List SourceFile) (w : World) :
    (runFiles we l w).2.fs = w.fs := by
  induction l generalizing w with
  | nil => rfl
  | cons f rest ih =>
    simp [runFiles, ih, processFile_fs]

theorem runFilesSqlite_fs (we : WriteOracle) (l : List SourceFile)
    (w : World) : (runFilesSqlite we l w).2.fs = w.fs := by
  induction l generalizing w with
  | nil => rfl
  | cons f rest ih =>
    cases hp : parse '\t' (str "id") f.content with
    | error e => simp [runFilesSqlite, hp]
    | ok td =>
      cases hw : we (deriveTableName f.path) with
      | none => simp [runFilesSqlite, hp, hw, ih]
      | some d => simp [runFilesSqlite, hp, hw]

theorem processFile_sink_mono (we : WriteOracle) (f : SourceFile)
    (w : World) (n : List Char) (h : (lookupTable w.sink n).isSome) :
    (lookupTable (processFile we f w).2.sink n).isSome := by
  cases hp : parse '\t' (str "id") f.content with
  | error e => simpa [processFile, hp] using h
  | ok td =>
    cases hw : we (deriveTableName f.path) with
    | some d => simpa [processFile, hp, hw] using h
    | none =>
      simp only [processFile, hp, hw]
      exact lookupTable_updateAssoc_isSome _ _ _ _ h

theorem runFiles_sink_mono (we : WriteOracle) (l : List SourceFile) :
    ∀ (w : World) (n : List Char), (lookupTable w.sink n).isSome →
      (lookupTable (runFiles we l w).2.sink n).isSome := by
  induction l with
  | nil => intro w n h; exact h
  | cons f rest ih =>
    intro w n h
    simp only [runFiles]
    exact ih _ _ (processFile_sink_mono we f w n h)

theorem processFile_writes (we : WriteOracle) (f : SourceFile) (w : World)
    (hok : parseFails f = false)
    (hwe : we (deriveTableName f.path) = none) :
    (lookupTable (processFile we f w).2.sink (deriveTableName f.path)).isSome := by
  cases hp : parse '\t' (str "id") f.content with
  | error e => simp [parseFails, hp] at hok
  | ok td =>
    simp only [processFile, hp, hwe]
    simp [load, lookupTable_updateAssoc_self]

theorem runFiles_loads_valid (we : WriteOracle) (hwe : ∀ n, we n = none)
    (l : List SourceFile) :
    ∀ (w : World) (f : SourceFile), f ∈ l → parseFails f = false →
      (lookupTable (runFiles we l w).2.sink (deriveTableName f.path)).isSome := by
  induction l with
  | nil => intro w f hf; cases hf
  | cons g rest ih =>
    intro w f hf hok
    simp only [runFiles]
    rcases List.mem_cons.mp hf with hfg | hmem
    · subst hfg
      exact runFiles_sink_mono we rest _ _
        (processFile_writes we f w hok (hwe _))
    · exact ih _ f hmem hok

theorem fileOutcome_isFailure (we : WriteOracle) (hwe : ∀ n, we n = none)
    (f : SourceFile) : (fileOutcome we f).isFailure = parseFails f := by
  cases hp : parse '\t' (str "id") f.content with
  | error e => simp [fileOutcome, parseFails, hp, LoadResult.isFailure]
  | ok td => simp [fileOutcome, parseFails, hp, hwe, LoadResult.isFailure]

theorem countP_isSuccess_add_isFailure (rs : List LoadResult) :
    rs.countP LoadResult.isSuccess + rs.countP LoadResult.isFailure =
      rs.length := by
  induction rs with
  | nil => rfl
  | cons r rest ih =>
    cases r <;>
      simp [List.countP_cons, LoadResult.isSuccess, LoadResult.isFailure] <;>
      omega

/- ### Claim theorems about the batch runs -/

/-- Concrete fixtures for the batch-run claims: a malformed file whose
header lacks the `id` column, and a well-formed tab-delimited file. -/
def badFile : SourceFile := ⟨str "../data/Bad.csv", [str "name\temail"]⟩

def goodFile : SourceFile :=
  ⟨str "../data/Good.csv", [str "id\tname", str "1\talice"]⟩

def exWorld : World := ⟨⟨[(str "../data/", [badFile, goodFile])]⟩, []⟩

/-- Claim C1, counterexample: the sqlite migration loop is a batch run
without the per-file `try/except`; on a directory whose first
discovered file is malformed it aborts with the escaping error before
touching the second file, so its valid table is never loaded and no
per-file results are recorded. -/
theorem runBatchSqlite_aborts_counterexample :
    discover exWorld.fs (str "../data/") (str ".csv")
        [str "../data/Person1.csv"] = Except.ok [badFile, goodFile] ∧
    runBatchSqlite oracleNone exWorld (str "../data/") (str ".csv")
        [str "../data/Person1.csv"] =
      (Except.ok (some (describeError ParseError.missingIdColumn)), exWorld) ∧
    lookupTable
      (runBatchSqlite oracleNone exWorld (str "../data/") (str ".csv")
        [str "../data/Person1.csv"]).2.sink
      (deriveTableName goodFile.path) = none := by
  refine ⟨by decide, by decide, by decide⟩

/-- Claim C1, amended (holds of the postgres migration loop, the one
with the per-file `try/except`): every discovered file contributes
exactly one LoadResult, in discovery order; a failure raised while
parsing or loading a file is caught at the per-file step and recorded
as a failure LoadResult carrying the error's description, and the batch
proceeds to the next file rather than aborting. -/
theorem runBatch_catches_per_file_failures (we : WriteOracle) (w : World)
    (dir suf : List Char) (exclude : List (List Char))
    (files : List SourceFile)
    (h : discover w.fs dir suf exclude = Except.ok files) :
    (runBatch we w dir suf exclude).1 =
      Except.ok (files.map (fileOutcome we)) := by
  simp [runBatch, h, runFiles_fst]

/-- Witness for the amended C1: the concrete two-file directory, whose
malformed first file is recorded as a failure while the second file is
still processed and recorded as a success. -/
theorem runBatch_catches_per_file_failures_witness :
    (runBatch oracleNone exWorld (str "../data/") (str ".csv")
        [str "../data/Person1.csv"]).1 =
      Except.ok ([badFile, goodFile].map (fileOutcome oracleNone)) :=
  runBatch_catches_per_file_failures oracleNone exWorld
    (str "../data/") (str ".csv") [str "../data/Person1.csv"]
    [badFile, goodFile] (by decide)

/-- Claim C2: when the discovered list has N entries of which exactly
one is malformed and the sink accepts every write, `runBatch` returns
exactly N LoadResults with exactly one failure and N-1 successes, and
afterwards the sink holds a table for every valid file. -/
theorem runBatch_one_malformed (we : WriteOracle) (w : World)
    (dir suf : List Char) (exclude : List (List Char))
    (files : List SourceFile) (N : Nat)
    (hd : discover w.fs dir suf exclude = Except.ok files)
    (hN : files.length = N)
    (hone : files.countP parseFails = 1)
    (hwe : ∀ n, we n = none) :
    ∃ rs w2, runBatch we w dir suf exclude = (Except.ok rs, w2) ∧
      rs = files.map (fileOutcome we) ∧
      rs.length = N ∧
      rs.countP LoadResult.isFailure = 1 ∧
      rs.countP LoadResult.isSuccess = N - 1 ∧
      ∀ f ∈ files, parseFails f = false →
        (lookupTable w2.sink (deriveTableName f.path)).isSome := by
  refine ⟨files.map (fileOutcome we), (runFiles we files w).2, ?_, rfl, ?_, ?_, ?_, ?_⟩
  · simp [runBatch, hd, runFiles_fst]
  · simp [hN]
  · rw [List.countP_map]
    calc List.countP (LoadResult.isFailure ∘ fileOutcome we) files
        = List.countP parseFails files :=
          List.countP_congr (fun f _ => by
            simp [Function.comp, fileOutcome_isFailure we hwe f])
      _ = 1 := hone
  · have hfail : (files.map (fileOutcome we)).countP LoadResult.isFailure = 1 := by
      rw [List.countP_map]
      calc List.countP (LoadResult.isFailure ∘ fileOutcome we) files
          = List.countP parseFails files :=
            List.countP_congr (fun f _ => by
              simp [Function.comp, fileOutcome_isFailure we hwe f])
        _ = 1 := hone
    have hlen : (files.map (fileOutcome we)).length = N := by simp [hN]
    have := countP_isSuccess_add_isFailure (files.map (fileOutcome we))
    omega
  · intro f hf hok
    exact runFiles_loads_valid we hwe files w f hf hok

/-- Witness for C2 at the concrete two-file directory: N = 2, one
malformed file, one failure, one success, and the valid file's table is
in the sink afterwards. -/
theorem runBatch_one_malformed_witness :
    ∃ rs w2, runBatch oracleNone exWorld (str "../data/") (str ".csv")
        [str "../data/Person1.csv"] = (Except.ok rs, w2) ∧
      rs = [badFile, goodFile].map (fileOutcome oracleNone) ∧
      rs.length = 2 ∧
      rs.countP LoadResult.isFailure = 1 ∧
      rs.countP LoadResult.isSuccess = 2 - 1 ∧
      ∀ f ∈ [badFile, goodFile], parseFails f = false →
        (lookupTable w2.sink (deriveTableName f.path)).isSome :=
  runBatch_one_malformed oracleNone exWorld (str "../data/") (str ".csv")
    [str "../data/Person1.csv"] [badFile, goodFile] 2
    (by decide) (by decide) (by decide) (fun n => rfl)

/-- Claim C7: when the target directory does not exist, `discover`
fails with `DirectoryNotFound`, and the whole batch aborts with that
error before any file is parsed or loaded: no LoadResult is produced
and the world (file system and sink) is untouched. -/
theorem discover_missing_dir_aborts (we : WriteOracle) (w : World)
    (dir suf : List Char) (exclude : List (List Char))
    (h : findDir w.fs.dirs dir = none) :
    discover w.fs dir suf exclude = Except.error FsError.directoryNotFound ∧
    runBatch we w dir suf exclude =
      (Except.error FsError.directoryNotFound, w) := by
  have hi : iterdir w.fs dir = Except.error FsError.directoryNotFound := by
    simp [iterdir, h]
  have hd : discover w.fs dir suf exclude =
      Except.error FsError.directoryNotFound := by
    simp [discover, hi, Except.map]
  exact ⟨hd, by simp [runBatch, hd]⟩

/-- Witness for C7: a world with no directories at all. -/
theorem discover_missing_dir_aborts_witness :
    discover (World.mk ⟨[]⟩ []).fs (str "../data/") (str ".csv") [] =
      Except.error FsError.directoryNotFound ∧
    runBatch oracleNone (World.mk ⟨[]⟩ []) (str "../data/") (str ".csv") [] =
      (Except.error FsError.directoryNotFound, World.mk ⟨[]⟩ []) :=
  discover_missing_dir_aborts oracleNone (World.mk ⟨[]⟩ [])
    (str "../data/") (str ".csv") [] (by decide)

/-- Claim C9: a batch run never mutates or deletes a source file: both
migration loops leave the file system exactly as they found it, writing
only to the sink, and `discover` is a read-only enumeration. -/
theorem loader_preserves_files (we : WriteOracle) (w : World)
    (dir suf : List Char) (exclude : List (List Char)) :
    (runBatch we w dir suf exclude).2.fs = w.fs ∧
    (runBatchSqlite we w dir suf exclude).2.fs = w.fs := by
  constructor
  · cases hd : discover w.fs dir suf exclude with
    | error e => simp [runBatch, hd]
    | ok files => simp [runBatch, hd, runFiles_fs]
  · cases hd : discover w.fs dir suf exclude with
    | error e => simp [runBatchSqlite, hd]
    | ok files => simp [runBatchSqlite, hd, runFilesSqlite_fs]

end DTL
